import Mathlib

/-!
# A shallow embedding of `src/pass.py` (Alfred password manager)

The Python script is a single-file command dispatcher over a SQLite-backed
password store.  We model:

* the store (`Store`) as the list of rows of the `passwords` table, in
  insertion order; `INSERT OR REPLACE` deletes the conflicting row and appends
  a fresh one, which `save_password` mirrors;
* Python string operations (`split`, `strip`, `lower`, `isdigit`, `in`, …)
  on the codepoint list `String.data` (restricted to ASCII case folding,
  ASCII digits and ASCII whitespace, which covers every literal the script
  compares against);
* `random.choice(chars)` as an oracle `choice : Nat → Fin chars.length`
  giving the index drawn at each position, so theorems quantify over every
  possible random stream;
* `time.time()` as an explicit `t : Nat` parameter;
* each `alfred_output(items)` call as one emitted `Envelope`; the dispatcher
  result collects the list of envelopes emitted (the propagation policy says
  it should always be a singleton) together with the final store.
-/

namespace PassPy

/-! ## Python string primitives -/

/-- Python `s.lower()` (ASCII case folding, as in `Char.toLower`). -/
def pyLower (s : String) : String := ⟨s.data.map Char.toLower⟩

/-- Python `s.isdigit()`: non-empty and all digits. -/
def pyIsdigit (s : String) : Bool := !s.data.isEmpty && s.data.all Char.isDigit

/-- Python `s.isspace()`: non-empty and all whitespace. -/
def pyIsspace (s : String) : Bool := !s.data.isEmpty && s.data.all Char.isWhitespace

/-- Python `int(s)` for a digit string. -/
def pyInt (s : String) : Nat := s.data.foldl (fun n c => n * 10 + (c.toNat - 48)) 0

/-- Remove leading and trailing whitespace from a codepoint list. -/
def stripList (l : List Char) : List Char :=
  ((l.dropWhile Char.isWhitespace).reverse.dropWhile Char.isWhitespace).reverse

/-- Python `s.strip()`. -/
def pyStrip (s : String) : String := ⟨stripList s.data⟩

/-- The words of a codepoint list: maximal runs of non-whitespace characters.
This is Python `s.split()` (no separator argument).  Written with structural
recursion (prepending a non-whitespace head to the first word of the tail)
so that it reduces inside the kernel; `words_cons_not_ws` below recovers the
usual `takeWhile`/`dropWhile` characterization. -/
def words : List Char → List (List Char)
  | [] => []
  | c :: cs =>
    if c.isWhitespace then words cs
    else
      match cs with
      | [] => [[c]]
      | d :: _ =>
        if d.isWhitespace then [c] :: words cs
        else
          match words cs with
          | [] => [[c]]
          | w :: rest => (c :: w) :: rest

/-- Python `query.split()`, as a list of strings. -/
def pyTokens (s : String) : List String := (words s.data).map String.mk

/-- Python `sub in s`: substring containment. -/
def strIn (sub s : String) : Bool := decide (sub.data <:+: s.data)

/-- Python `s.startswith(pre)`. -/
def strStartsWith (s pre : String) : Bool := pre.data.isPrefixOf s.data

/-! ## The password store

One `Entry` is one row of the `passwords` table (the `id` column never
matters: the script only ever selects `name` and `password`). -/

structure Entry where
  name : String
  password : String
  created_at : Nat
  deriving DecidableEq, Repr

abbrev Store := List Entry

/-- `save_password`: `INSERT OR REPLACE` first deletes every row with the
conflicting unique `name`, then inserts the new row. -/
def save_password (st : Store) (name password : String) (t : Nat) : Store :=
  (st.filter (fun e => e.name != name)) ++ [⟨name, password, t⟩]

/-- `get_password`: `SELECT password FROM passwords WHERE name=?`, first row
if any (`row[0] if row else None`). -/
def get_password (st : Store) (name : String) : Option String :=
  (st.find? (fun e => e.name == name)).map Entry.password

/-- Insert an entry into a list that is already sorted by `created_at`
descending, keeping it sorted (ties keep the existing rows first). -/
def insertByCreated (e : Entry) : Store → Store
  | [] => [e]
  | x :: xs => if e.created_at ≤ x.created_at then x :: insertByCreated e xs else e :: x :: xs

/-- Sort the table rows by `created_at` descending (`ORDER BY created_at DESC`). -/
def sortByCreatedDesc : Store → Store
  | [] => []
  | e :: es => insertByCreated e (sortByCreatedDesc es)

/-- `list_passwords`: all names, ordered by `created_at` descending. -/
def list_passwords (st : Store) : List String :=
  (sortByCreatedDesc st).map Entry.name

/-- `delete_password`: `DELETE FROM passwords WHERE name=?`; returns the new
store and whether the rowcount was positive. -/
def delete_password (st : Store) (name : String) : Store × Bool :=
  (st.filter (fun e => e.name != name), st.any (fun e => e.name == name))

/-- `clear_all_passwords`: counts the rows, deletes them all, returns the
count taken before the delete. -/
def clear_all_passwords (st : Store) : Nat × Store := (st.length, [])

/-! ## Password generation -/

/-- `string.ascii_letters`. -/
def ascii_letters : String := "abcdefghijklmnopqrstuvwxyzABCDEFGHIJKLMNOPQRSTUVWXYZ"

/-- `string.digits`. -/
def string_digits : String := "0123456789"

/-- The generation alphabet: `string.ascii_letters + string.digits + "!@#$%^&*()-_=+"`. -/
def chars : String := ascii_letters ++ string_digits ++ "!@#$%^&*()-_=+"

/-- `generate_password(length)`: one `random.choice(chars)` per position of
`range(length)`.  `choice i` is the index the PRNG draws at position `i`;
`range` of a non-positive int is empty, hence `Int.toNat`. -/
def generate_password (choice : Nat → Fin chars.length) (length : Int := 16) : String :=
  ⟨(List.range length.toNat).map (fun i => chars.data.get (choice i))⟩

/-! ## Alfred result items

`alfred_output` normalizes either a `(name, subtitle)` tuple or a dict with
optional keys into the full five-field JSON item.  Note Python's `x or ""`
is the identity on strings (`"" or ""` is `""`), so it is dropped here. -/

structure AlfredItem where
  title : String
  subtitle : String
  arg : String
  autocomplete : String
  valid : Bool
  deriving DecidableEq, Repr

inductive RawItem where
  | tup (name subtitle : String)
  | dict (title subtitle arg autocomplete : Option String) (valid : Option Bool)
  deriving DecidableEq, Repr

def alfredItem : RawItem → AlfredItem
  | .tup name subtitle => ⟨name, subtitle, name, name, true⟩
  | .dict title subtitle arg autocomplete valid =>
    let name := title.getD ""
    ⟨name, subtitle.getD "", arg.getD name, autocomplete.getD name, valid.getD true⟩

/-- One JSON envelope: the `items` array printed by one `alfred_output` call. -/
abbrev Envelope := List AlfredItem

def alfred_output (items : List RawItem) : Envelope := items.map alfredItem

/-! ## Command handlers -/

/-- The shared `f"点击复制密码: {pwd[:20]}..."` truncated subtitle. -/
def copySubtitle (pwd : String) : String :=
  if pwd.length > 20 then "点击复制密码: " ++ (⟨pwd.data.take 20⟩ : String) ++ "..."
  else "点击复制密码: " ++ pwd

/-- The per-name item built in the `handle_list_command` and fuzzy-search
loops (`if pwd:` is string truthiness: not `None` and not `""`). -/
def passwordRowItem (st : Store) (name : String) : RawItem :=
  let pwd := (get_password st name).getD ""
  if pwd != "" then .dict (some name) (some (copySubtitle pwd)) (some pwd) (some name) none
  else .dict (some name) (some "密码不存在") (some "") (some name) (some false)

def notFoundItem : RawItem :=
  .tup "未找到密码" "可用 \x27标签 密码\x27 保存新密码或 \x27长度 标签\x27 生成密码"

def handle_list_command (st : Store) : Envelope :=
  let rows := list_passwords st
  if !rows.isEmpty then alfred_output (rows.map (passwordRowItem st))
  else alfred_output [.tup "无密码记录" "使用 \x27pwd 长度 标签\x27 生成密码"]

/-- The count-aware confirmation prompt of `handle_clear_command` (both the
`== "clear"` branch and the final `else` branch emit exactly this). -/
def clearPrompt (st : Store) : Envelope :=
  let current_count := (list_passwords st).length
  if current_count > 0 then
    alfred_output [.tup "⚠️ 确认清空"
      ("输入 \x27clear confirm\x27 来确认清空所有密码（当前有 " ++ toString current_count ++ " 个密码）")]
  else
    alfred_output [.tup "⚠️ 确认清空" "输入 \x27clear confirm\x27 来确认清空所有密码（当前没有密码）"]

def handle_clear_command (st : Store) (query : String) : Envelope × Store :=
  if pyLower (pyStrip query) == "clear" then (clearPrompt st, st)
  else if pyLower (pyStrip query) == "clear confirm" then
    let res := clear_all_passwords st
    if res.1 > 0 then
      let remaining := (list_passwords res.2).length
      if remaining == 0 then
        (alfred_output [.tup "✅ 清空完成" ("已成功删除 " ++ toString res.1 ++ " 个密码记录")], res.2)
      else
        (alfred_output [.tup "⚠️ 清空部分完成"
          ("已删除 " ++ toString res.1 ++ " 个密码记录，但仍有 " ++ toString remaining ++ " 个密码未删除")], res.2)
    else (alfred_output [.tup "清空完成" "没有密码记录需要删除"], res.2)
  else (clearPrompt st, st)

/-- `handle_delete_command`; the Python `len == 2` branch and the `> 2`
branch have literally identical bodies (both delete `query_args[1]`), so they
are rendered as one `else`. -/
def handle_delete_command (st : Store) (query_args : List String) : Envelope × Store :=
  if query_args.length == 1 then
    (alfred_output [.dict (some "删除密码") (some "用法: del 密码名称") none none (some false)], st)
  else
    let name := query_args.getD 1 ""
    let res := delete_password st name
    if res.2 then
      (alfred_output [.dict (some "✅ 删除成功") (some ("已删除密码: " ++ name)) (some "") none (some false)], res.1)
    else
      (alfred_output [.dict (some "删除失败") (some ("未找到密码: " ++ name)) (some "") none (some false)], res.1)

/-- `handle_regen_command`.  Note the guard: with fewer than two tokens the
handler falls through and emits nothing at all, hence the `List Envelope`. -/
def handle_regen_command (st : Store) (choice : Nat → Fin chars.length) (t : Nat)
    (query_args : List String) : List Envelope × Store :=
  if query_args.length ≥ 2 then
    let nl : String × Int :=
      if decide (query_args.length ≥ 3) && pyIsdigit (query_args.getLastD "") then
        (" ".intercalate ((query_args.drop 1).dropLast), (pyInt (query_args.getLastD "") : Int))
      else (" ".intercalate (query_args.drop 1), 16)
    let pwd := generate_password choice nl.2
    let st' := save_password st nl.1 pwd t
    ([alfred_output [.dict (some nl.1) (some ("已重新生成，点击复制: " ++ pwd)) (some pwd) none none]], st')
  else ([], st)

def handle_generate_password (st : Store) (choice : Nat → Fin chars.length) (t : Nat)
    (query_args : List String) : Envelope × Store :=
  let len : Int := (pyInt (query_args.headD "") : Int)
  let name := if query_args.length > 1 then " ".intercalate (query_args.drop 1)
              else "pwd_" ++ toString t
  let pwd := generate_password choice len
  let st' := save_password st name pwd t
  (alfred_output [.dict (some name) (some ("已生成并保存，点击复制: " ++ pwd)) (some pwd) none none], st')

def handle_save_password (st : Store) (t : Nat) (query_args : List String) : Envelope × Store :=
  let name := query_args.headD ""
  let pwd := " ".intercalate (query_args.drop 1)
  let st' := save_password st name pwd t
  (alfred_output [.dict (some name) (some ("已保存，点击复制: " ++ pwd)) (some pwd) none none], st')

def handle_query_password (st : Store) (query_args : List String) : Envelope :=
  let name := query_args.headD ""
  let pwd := (get_password st name).getD ""
  if pwd != "" then alfred_output [.dict (some name) (some ("点击复制密码: " ++ pwd)) (some pwd) none none]
  else alfred_output [notFoundItem]

def handle_smart_search (st : Store) (query : String) : Envelope :=
  let all_passwords := list_passwords st
  match all_passwords.find? (fun name => pyLower name == pyLower query) with
  | some exact_match =>
      let pwd := (get_password st exact_match).getD ""
      if pwd != "" then
        alfred_output [.dict (some exact_match) (some ("点击复制密码: " ++ pwd)) (some pwd) none none]
      else alfred_output [notFoundItem]
  | none =>
      let matching := all_passwords.filter (fun name => strIn (pyLower query) (pyLower name))
      if !matching.isEmpty then alfred_output (matching.map (passwordRowItem st))
      else alfred_output [notFoundItem]

/-! ## Help screen -/

def helpBaseItems (password_count : Nat) : List RawItem :=
  [ .dict (some "🔐 密码管理工具") (some ("当前已保存 " ++ toString password_count ++ " 个密码")) (some "") none (some false)
  , .dict (some "生成密码") (some "pwd 16 github - 生成16位密码并保存为github") (some "") (some "16 ") (some false)
  , .dict (some "保存密码") (some "pwd github mypass - 保存密码为github") (some "") (some "github ") (some false)
  , .dict (some "查询密码") (some "pwd github - 查询并复制github密码") (some "") (some "github") (some false)
  , .dict (some "列出密码") (some "pwd list - 显示所有保存的密码") (some "") (some "list") (some false)
  , .dict (some "删除密码") (some "pwd del github confirm - 删除github密码") (some "") (some "del ") (some false)
  , .dict (some "清空密码") (some "pwd clear confirm - 清空所有密码") (some "") (some "clear confirm") (some false)
  , .dict (some "重新生成") (some "pwd regen github - 为github重新生成密码") (some "") (some "regen ") (some false) ]

def recentItem (st : Store) (name : String) : RawItem :=
  let pwd := (get_password st name).getD ""
  if pwd != "" then .dict (some ("🔑 " ++ name)) (some (copySubtitle pwd)) (some pwd) (some name) none
  else .dict (some ("🔑 " ++ name)) (some "密码不存在") (some "") (some name) (some false)

def show_help (st : Store) : Envelope :=
  let password_count := (list_passwords st).length
  let extra :=
    if password_count > 0 then
      let all_passwords := list_passwords st
      (.dict (some "📋 快速访问") (some "点击查看所有保存的密码") (some "") (some "list") (some false))
        :: (all_passwords.take 3).map (recentItem st)
    else []
  alfred_output (helpBaseItems password_count ++ extra)

/-! ## The dispatcher (`main`) -/

def system_messages : List String :=
  ["✅ 删除成功", "删除成功", "删除失败", "✅ 清空完成", "清空完成", "清空失败"]

def isSystemMessage (query : String) : Bool :=
  system_messages.contains (pyStrip query)
    || strStartsWith (pyStrip query) "✅" || strStartsWith (pyStrip query) "❌"

def helpMarkers : List String := ["🔐", "🔑", "📋", "⚠️"]

def allMarkers : List String := ["🔐", "🔑", "📋", "⚠️", "✅", "❌"]

def containsAnyMarker (query : String) (ms : List String) : Bool := ms.any (fun m => strIn m query)

/-- The outcome of one invocation: the envelopes printed (the error-handling
policy demands exactly one) and the resulting store. -/
structure DispatchResult where
  outputs : List Envelope
  store : Store
  deriving DecidableEq

def stillTypingItem (subtitle : String) : Envelope :=
  alfred_output [.dict (some "输入中...") (some subtitle) none none (some false)]

/-- The body of `main` after the argv → `query` normalization. -/
def runQuery (st : Store) (choice : Nat → Fin chars.length) (t : Nat) (query : String) :
    DispatchResult :=
  let query_args := pyTokens query
  if query == "" || pyIsspace query then ⟨[show_help st], st⟩
  else if isSystemMessage query then ⟨[show_help st], st⟩
  else if query.length < 2 then ⟨[stillTypingItem "继续输入以搜索或生成密码"], st⟩
  else if query_args.length == 1 && pyIsdigit (query_args.headD "") then
    ⟨[stillTypingItem ("继续输入标签名（当前长度: " ++ query_args.headD "" ++ "）")], st⟩
  else if query_args.length == 2 && pyIsdigit (query_args.headD "")
      && decide ((query_args.getD 1 "").length ≤ 2) then
    ⟨[stillTypingItem ("继续输入标签名，当前: " ++ query_args.getD 1 "")], st⟩
  else if query_args.length == 2 && pyIsdigit (query_args.headD "")
      && (pyLower (query_args.getD 1 "") == "gi" || pyLower (query_args.getD 1 "") == "g") then
    ⟨[stillTypingItem ("继续输入完整标签名，当前: " ++ query_args.getD 1 "")], st⟩
  else
    let is_special_command :=
      ["list", "clear", "del", "regen"].any (fun cmd => (query_args.map pyLower).contains cmd)
    let is_number_start := !query_args.isEmpty && pyIsdigit (query_args.headD "")
    let first_arg := pyLower (query_args.headD "")
    if !query_args.isEmpty
        && (first_arg == "list" || (decide (first_arg.length ≥ 2) && (first_arg == "li" || first_arg == "lis"))) then
      ⟨[handle_list_command st], st⟩
    else if !query_args.isEmpty && first_arg == "del" then
      let res := handle_delete_command st query_args
      ⟨[res.1], res.2⟩
    else if !query_args.isEmpty
        && (first_arg == "regen" || (decide (first_arg.length ≥ 3) && (first_arg == "reg" || first_arg == "rege"))) then
      let res := handle_regen_command st choice t query_args
      ⟨res.1, res.2⟩
    else if !query_args.isEmpty && (query_args.map pyLower).contains "clear" then
      let res := handle_clear_command st query
      ⟨[res.1], res.2⟩
    else if is_number_start then
      let res := handle_generate_password st choice t query_args
      ⟨[res.1], res.2⟩
    else if decide (query_args.length ≥ 2) && !is_number_start
        && !containsAnyMarker query allMarkers then
      let res := handle_save_password st t query_args
      ⟨[res.1], res.2⟩
    else if !is_special_command && !is_number_start && query_args.length == 1 then
      if containsAnyMarker query helpMarkers then ⟨[show_help st], st⟩
      else ⟨[handle_smart_search st query], st⟩
    else if !query_args.isEmpty then
      if containsAnyMarker query allMarkers then ⟨[show_help st], st⟩
      else ⟨[handle_query_password st query_args], st⟩
    else ⟨[show_help st], st⟩

/-- The argv → `query` normalization at the top of `main`. -/
def queryOfArgs (args : List String) : String :=
  match args with
  | [] => ""
  | a :: _ =>
    if a == "" then ""
    else if a == "(null)" || a == "null" then ""
    else pyStrip a

/-- `main()`: normalize the single Alfred argument, then dispatch. -/
def pyMain (st : Store) (choice : Nat → Fin chars.length) (t : Nat) (args : List String) :
    DispatchResult :=
  runQuery st choice t (queryOfArgs args)

/-! ## Concrete fixtures used by witnesses and counterexamples -/

/-- A concrete random stream: always draw index 0 (the letter `a`). -/
def constChoice : Nat → Fin chars.length := fun _ => ⟨0, by decide⟩

/-- A two-entry sample store. -/
def sampleStore : Store := [⟨"github", "hunter2", 5⟩, ⟨"mail", "p@ss", 9⟩]

/-! ## Lemmas about `words` and `stripList` -/


/-- Strong-induction principle following the call structure of Python split:
skip a whitespace head, or consume a maximal non-whitespace run. -/
theorem words_rec {motive : List Char → Prop}
    (nil : motive [])
    (ws : ∀ c cs, c.isWhitespace = true → motive cs → motive (c :: cs))
    (nws : ∀ c cs, c.isWhitespace = false →
      motive (cs.dropWhile (fun d => !d.isWhitespace)) → motive (c :: cs)) :
    ∀ l, motive l := by
  have H : ∀ n (l : List Char), l.length ≤ n → motive l := by
    intro n
    induction n with
    | zero =>
      intro l hl
      cases l with
      | nil => exact nil
      | cons c cs => simp at hl
    | succ n ih =>
      intro l hl
      cases l with
      | nil => exact nil
      | cons c cs =>
        simp only [List.length_cons, Nat.succ_le_succ_iff] at hl
        cases hc : c.isWhitespace with
        | true => exact ws c cs hc (ih cs hl)
        | false =>
          exact nws c cs hc
            (ih _ (le_trans (List.Sublist.length_le (List.dropWhile_sublist _)) hl))
  exact fun l => H l.length l le_rfl

theorem words_cons_ws {c : Char} (cs : List Char) (h : c.isWhitespace = true) :
    words (c :: cs) = words cs := by
  simp [words, h]

theorem words_cons_not_ws {c : Char} (cs : List Char) (h : c.isWhitespace = false) :
    words (c :: cs) =
      (c :: cs.takeWhile (fun d => !d.isWhitespace))
        :: words (cs.dropWhile (fun d => !d.isWhitespace)) := by
  induction cs generalizing c with
  | nil => simp [words, h]
  | cons d ds ih =>
    cases hd : d.isWhitespace with
    | true =>
      simp [words, h, hd, List.takeWhile_cons, List.dropWhile_cons]
    | false =>
      have hds := @ih d hd
      conv_lhs => rw [words]
      simp only [h, Bool.false_eq_true, if_false, hd, hds]
      rw [List.takeWhile_cons, List.dropWhile_cons]
      simp [hd]

/-- An all-whitespace list has no words. -/
theorem words_eq_nil_of_ws {l : List Char} (h : ∀ c ∈ l, c.isWhitespace = true) :
    words l = [] := by
  induction l with
  | nil => rfl
  | cons c cs ih =>
    rw [words_cons_ws cs (h c (by simp))]
    exact ih (fun d hd => h d (by simp [hd]))

/-- Every word is non-empty. -/
theorem words_ne_nil {l w : List Char} (hw : w ∈ words l) : w ≠ [] := by
  induction l using words_rec with
  | nil => simp [words] at hw
  | ws c cs hc ih => rw [words_cons_ws cs hc] at hw; exact ih hw
  | nws c cs hc ih =>
    rw [words_cons_not_ws cs hc] at hw
    rcases List.mem_cons.mp hw with h | h
    · subst h; simp
    · exact ih h

/-- Characters of words are never whitespace. -/
theorem words_not_ws {l w : List Char} {c : Char} (hw : w ∈ words l) (hc : c ∈ w) :
    c.isWhitespace = false := by
  induction l using words_rec with
  | nil => simp [words] at hw
  | ws d ds hd ih => rw [words_cons_ws ds hd] at hw; exact ih hw
  | nws d ds hd ih =>
    rw [words_cons_not_ws ds hd] at hw
    rcases List.mem_cons.mp hw with h | h
    · subst h
      rcases List.mem_cons.mp hc with h | h
      · subst h; exact hd
      · simpa using List.mem_takeWhile_imp h
    · exact ih h

/-- The words of a list use at most its characters. -/
theorem words_length_sum_le (l : List Char) :
    ((words l).map List.length).sum ≤ l.length := by
  induction l using words_rec with
  | nil => simp [words]
  | ws c cs hc ih =>
    rw [words_cons_ws cs hc]
    exact le_trans ih (by simp)
  | nws c cs hc ih =>
    rw [words_cons_not_ws cs hc]
    simp only [List.map_cons, List.sum_cons, List.length_cons]
    have hsplit := congrArg List.length (List.takeWhile_append_dropWhile (fun d => !d.isWhitespace) cs)
    rw [List.length_append] at hsplit
    omega

theorem takeWhile_nil_of_ws {t : List Char} (ht : ∀ c ∈ t, c.isWhitespace = true) :
    t.takeWhile (fun d => !d.isWhitespace) = [] := by
  cases t with
  | nil => rfl
  | cons c cs => simp [List.takeWhile_cons, ht c (by simp)]

theorem dropWhile_id_of_ws {t : List Char} (ht : ∀ c ∈ t, c.isWhitespace = true) :
    t.dropWhile (fun d => !d.isWhitespace) = t := by
  cases t with
  | nil => rfl
  | cons c cs => simp [List.dropWhile_cons, ht c (by simp)]

/-- Appending trailing whitespace does not change the words. -/
theorem words_append_ws {t : List Char} (ht : ∀ c ∈ t, c.isWhitespace = true) (l : List Char) :
    words (l ++ t) = words l := by
  induction l using words_rec with
  | nil => simpa using words_eq_nil_of_ws ht
  | ws c cs hc ih =>
    rw [List.cons_append, words_cons_ws _ hc, words_cons_ws cs hc]; exact ih
  | nws c cs hc ih =>
    rw [List.cons_append, words_cons_not_ws _ hc, words_cons_not_ws cs hc]
    by_cases hall : ∀ x : Char, x ∈ cs → (!x.isWhitespace) = true
    · rw [List.takeWhile_append_of_pos hall, List.dropWhile_append_of_pos hall,
        takeWhile_nil_of_ws ht, dropWhile_id_of_ws ht,
        List.takeWhile_eq_self_iff.mpr hall, List.dropWhile_eq_nil_iff.mpr hall]
      simp [words_eq_nil_of_ws ht, words]
    · have hdw : ¬ cs.dropWhile (fun d => !d.isWhitespace) = [] := by
        intro hnil
        exact hall (List.dropWhile_eq_nil_iff.mp hnil)
      have htw : ¬ (cs.takeWhile (fun d => !d.isWhitespace)).length = cs.length := by
        intro hlen
        have hpre : cs.takeWhile (fun d => !d.isWhitespace) <+: cs :=
          List.takeWhile_prefix _
        exact hall (List.takeWhile_eq_self_iff.mp (hpre.eq_of_length hlen))
      have h1 : (cs ++ t).takeWhile (fun d => !d.isWhitespace)
          = cs.takeWhile (fun d => !d.isWhitespace) := by
        rw [List.takeWhile_append, if_neg htw]
      have h2 : (cs ++ t).dropWhile (fun d => !d.isWhitespace)
          = cs.dropWhile (fun d => !d.isWhitespace) ++ t := by
        rw [List.dropWhile_append, if_neg (by simpa [List.isEmpty_iff] using hdw)]
      rw [h1, h2, ih]

/-- Prepending leading whitespace does not change the words. -/
theorem ws_append_words {p : List Char} (hp : ∀ c ∈ p, c.isWhitespace = true) (l : List Char) :
    words (p ++ l) = words l := by
  induction p with
  | nil => rfl
  | cons c cs ih =>
    rw [List.cons_append, words_cons_ws _ (hp c (by simp))]
    exact ih (fun d hd => hp d (by simp [hd]))

/-- A list is leading whitespace, then its strip, then trailing whitespace. -/
theorem stripList_decomp (l : List Char) :
    ∃ p s, l = p ++ stripList l ++ s
      ∧ (∀ c ∈ p, c.isWhitespace = true) ∧ (∀ c ∈ s, c.isWhitespace = true) := by
  refine ⟨l.takeWhile Char.isWhitespace,
    ((l.dropWhile Char.isWhitespace).reverse.takeWhile Char.isWhitespace).reverse, ?_, ?_, ?_⟩
  · rw [List.append_assoc]
    conv_lhs => rw [← List.takeWhile_append_dropWhile Char.isWhitespace l]
    congr 1
    conv_lhs => rw [← List.reverse_reverse (l.dropWhile Char.isWhitespace),
      ← List.takeWhile_append_dropWhile Char.isWhitespace (l.dropWhile Char.isWhitespace).reverse,
      List.reverse_append]
    rfl
  · intro c hc; exact List.mem_takeWhile_imp hc
  · intro c hc; rw [List.mem_reverse] at hc; exact List.mem_takeWhile_imp hc

/-- `split()` is invariant under `strip()`. -/
theorem words_stripList (l : List Char) : words (stripList l) = words l := by
  obtain ⟨p, s, hl, hp, hs⟩ := stripList_decomp l
  conv_rhs => rw [hl]
  rw [List.append_assoc, ws_append_words hp, words_append_ws hs]

theorem mem_of_mem_stripList {l : List Char} {c : Char} (h : c ∈ stripList l) : c ∈ l := by
  obtain ⟨p, s, hl, _, _⟩ := stripList_decomp l
  rw [hl]
  simp [h]

/-- A non-empty all-black list is its own single word. -/
theorem words_eq_self_of_not_ws {l : List Char} (hne : l ≠ [])
    (h : ∀ c ∈ l, c.isWhitespace = false) : words l = [l] := by
  cases l with
  | nil => exact absurd rfl hne
  | cons c cs =>
    rw [words_cons_not_ws cs (h c (by simp))]
    rw [List.takeWhile_eq_self_iff.mpr (by intro x hx; simp [h x (by simp [hx])]),
      List.dropWhile_eq_nil_iff.mpr (by intro x hx; simp [h x (by simp [hx])])]
    rfl

theorem stripList_eq_self_of_not_ws {l : List Char} (h : ∀ c ∈ l, c.isWhitespace = false) :
    stripList l = l := by
  obtain ⟨p, s, hl, hp, hs⟩ := stripList_decomp l
  have hp' : p = [] := by
    cases p with
    | nil => rfl
    | cons c cs =>
      have : c ∈ l := by rw [hl]; simp
      exact absurd (hp c (by simp)) (by simp [h c this])
  have hs' : s = [] := by
    cases s with
    | nil => rfl
    | cons c cs =>
      have : c ∈ l := by rw [hl]; simp
      exact absurd (hs c (by simp)) (by simp [h c this])
  subst hp' hs'
  simpa using hl.symm

/-! String-level corollaries -/

theorem data_mk (l : List Char) : (String.mk l).data = l := rfl

theorem words_data_of_pyTokens {q : String} {ts : List String} (h : pyTokens q = ts) :
    words q.data = ts.map String.data := by
  have h2 := congrArg (List.map String.data) h
  rw [pyTokens, List.map_map] at h2
  simpa only [Function.comp_def, data_mk, List.map_id'] using h2



/-! ## Store lemmas and generator claims (C1, C2, C3, C7, C10) -/


/-! Store lemmas -/

theorem insertByCreated_perm (e : Entry) (l : Store) : (insertByCreated e l).Perm (e :: l) := by
  induction l with
  | nil => exact List.Perm.refl _
  | cons x xs ih =>
    rw [insertByCreated]
    by_cases h : e.created_at ≤ x.created_at
    · rw [if_pos h]
      exact (ih.cons x).trans (List.Perm.swap e x xs)
    · rw [if_neg h]

theorem sortByCreatedDesc_perm (st : Store) : (sortByCreatedDesc st).Perm st := by
  induction st with
  | nil => exact List.Perm.refl _
  | cons e es ih =>
    exact (insertByCreated_perm e (sortByCreatedDesc es)).trans (ih.cons e)

theorem list_passwords_perm (st : Store) : (list_passwords st).Perm (st.map Entry.name) :=
  (sortByCreatedDesc_perm st).map Entry.name

theorem length_list_passwords (st : Store) : (list_passwords st).length = st.length := by
  rw [(list_passwords_perm st).length_eq, List.length_map]

theorem get_save (st : Store) (L S : String) (t : Nat) :
    get_password (save_password st L S t) L = some S := by
  unfold get_password save_password
  rw [List.find?_append]
  have h1 : (st.filter (fun e => e.name != L)).find? (fun e => e.name == L) = none := by
    rw [List.find?_eq_none]
    intro e he hb
    have h2 := List.of_mem_filter he
    simp only [bne_iff_ne, ne_eq] at h2
    exact h2 (by simpa using hb)
  rw [h1]
  simp [List.find?]

theorem countP_save (st : Store) (L S : String) (t : Nat) :
    (save_password st L S t).countP (fun e => e.name == L) = 1 := by
  unfold save_password
  rw [List.countP_append]
  have h0 : (st.filter (fun e => e.name != L)).countP (fun e => e.name == L) = 0 := by
    rw [List.countP_eq_zero]
    intro e he
    have h2 := List.of_mem_filter he
    simp only [bne_iff_ne, ne_eq] at h2
    simpa using h2
  rw [h0]
  simp [List.countP, List.countP.go]

theorem count_list_passwords (st : Store) (L : String) :
    (list_passwords st).count L = st.countP (fun e => e.name == L) := by
  rw [(list_passwords_perm st).count_eq, List.count_eq_countP, List.countP_map]
  rfl

/-- C3: `save(L,S)` then `get(L)` returns `S`; a second `save` overwrites and
`list()` keeps exactly one entry for `L`. -/
theorem save_get_roundtrip_and_overwrite (st : Store) (L S S1 S2 : String) (t t1 t2 : Nat) :
    get_password (save_password st L S t) L = some S ∧
    get_password (save_password (save_password st L S1 t1) L S2 t2) L = some S2 ∧
    (list_passwords (save_password (save_password st L S1 t1) L S2 t2)).count L = 1 := by
  refine ⟨get_save st L S t, get_save _ L S2 t2, ?_⟩
  rw [count_list_passwords]
  exact countP_save _ L S2 t2

/-! C7: delete_password -/

theorem filter_eq_eraseP_of_countP_one {st : Store} {L : String}
    (h : st.countP (fun e => e.name == L) = 1) :
    st.filter (fun e => e.name != L) = st.eraseP (fun e => e.name == L) := by
  induction st with
  | nil => rfl
  | cons e es ih =>
    rw [List.countP_cons] at h
    rw [List.filter_cons, List.eraseP_cons]
    by_cases he : e.name = L
    · have he1 : (e.name == L) = true := by simpa using he
      have he2 : (e.name != L) = false := by simp [bne, he1]
      rw [he1, he2]
      simp only [cond_true, Bool.false_eq_true, if_false]
      rw [List.filter_eq_self]
      intro a ha
      have hz : es.countP (fun e => e.name == L) = 0 := by
        rw [he1] at h
        simp only [if_true, if_pos] at h
        omega
      have h3 := List.countP_eq_zero.mp hz a ha
      simpa using h3
    · have he1 : (e.name == L) = false := by simpa using he
      have he2 : (e.name != L) = true := by simp [bne, he1]
      rw [he1, he2]
      simp only [cond_false, if_true]
      rw [ih (by rw [he1] at h; simpa using h)]

/-- C7: deleting an absent label returns false and leaves the store unchanged;
deleting a present label returns true, and under the uniqueness invariant it
removes exactly that entry. -/
theorem delete_password_spec (st : Store) (L : String) :
    ((∀ e ∈ st, e.name ≠ L) → delete_password st L = (st, false)) ∧
    ((∃ e ∈ st, e.name = L) → (delete_password st L).2 = true) ∧
    (st.countP (fun e => e.name == L) = 1 →
      (delete_password st L).1 = st.eraseP (fun e => e.name == L)) := by
  refine ⟨?_, ?_, ?_⟩
  · intro h
    unfold delete_password
    rw [List.filter_eq_self.mpr (fun e he => by simpa using h e he)]
    have hany : st.any (fun e => e.name == L) = false := by
      rw [Bool.eq_false_iff]
      intro hb
      obtain ⟨e, he, hbe⟩ := List.any_eq_true.mp hb
      exact h e he (by simpa using hbe)
    rw [hany]
  · intro ⟨e, he, hname⟩
    unfold delete_password
    simp only
    exact List.any_eq_true.mpr ⟨e, he, by simpa using hname⟩
  · intro h
    unfold delete_password
    simpa using filter_eq_eraseP_of_countP_one h

/-- Witness for `delete_password_spec` on a concrete store. -/
theorem delete_password_spec_witness :
    delete_password sampleStore "absent" = (sampleStore, false) ∧
    (delete_password sampleStore "github").2 = true ∧
    (delete_password sampleStore "github").1 = [⟨"mail", "p@ss", 9⟩] := by
  refine ⟨(delete_password_spec sampleStore "absent").1 (by decide), ?_, ?_⟩
  · exact (delete_password_spec sampleStore "github").2.1 ⟨⟨"github", "hunter2", 5⟩, by decide, rfl⟩
  · have h := (delete_password_spec sampleStore "github").2.2 (by decide)
    rw [h]
    decide

/-! C1: generator length and alphabet.  The alphabet has 76 distinct
characters (14 symbols), not 70 (8 symbols) as the spec says. -/

/-- C1 counterexample: the fixed alphabet enumerated by the spec has 76
distinct characters, not 70. -/
theorem chars_has_76_characters :
    chars.length = 76 ∧ ¬ chars.length = 70 ∧ chars.data.Nodup := by
  exact ⟨by decide, by decide, by decide⟩

/-- C1 (amended): for every length `n ≥ 1` and every random stream, the
generated password has exactly `n` characters, all from the fixed
76-character alphabet. -/
theorem generate_password_length_and_alphabet (choice : Nat → Fin chars.length) (n : Int)
    (h : 1 ≤ n) :
    ((generate_password choice n).length : Int) = n ∧
    ∀ c ∈ (generate_password choice n).data, c ∈ chars.data := by
  constructor
  · have hlen : (generate_password choice n).length = n.toNat := by
      unfold generate_password
      show ((List.range n.toNat).map _).length = n.toNat
      rw [List.length_map, List.length_range]
    rw [hlen]
    exact Int.toNat_of_nonneg (le_trans zero_le_one h)
  · intro c hc
    simp only [generate_password, data_mk, List.mem_map] at hc
    obtain ⟨i, _, rfl⟩ := hc
    exact List.get_mem chars.data (choice i).1 (choice i).2

theorem generate_password_length_and_alphabet_witness :
    (1 : Int) ≤ 3 ∧
    (((generate_password constChoice 3).length : Int) = 3 ∧
      ∀ c ∈ (generate_password constChoice 3).data, c ∈ chars.data) :=
  ⟨by decide, generate_password_length_and_alphabet constChoice 3 (by decide)⟩

/-! C10: generate is total; non-positive lengths yield the empty string. -/

/-- C10: `generate_password` on any length `n ≤ 0` returns `""` (Python
`range` of a non-positive int is empty), raising no error. -/
theorem generate_password_nonpositive (choice : Nat → Fin chars.length) (n : Int)
    (h : n ≤ 0) : generate_password choice n = "" := by
  unfold generate_password
  rw [Int.toNat_of_nonpos h]
  rfl

theorem generate_password_nonpositive_witness :
    (-5 : Int) ≤ 0 ∧ generate_password constChoice (-5) = "" :=
  ⟨by decide, generate_password_nonpositive constChoice (-5) (by decide)⟩

/-! C2: the bare `regen` query emits no envelope at all. -/

/-- C2: on the query `regen`, whatever the store, the random stream and the
clock, `main` terminates without printing any result envelope: the regen
handler's `len(query_args) >= 2` guard falls through with no `alfred_output`
call.  This contradicts the propagation policy (exactly one well-formed
envelope per invocation). -/
theorem pyMain_regen_emits_no_envelope (st : Store) (choice : Nat → Fin chars.length) (t : Nat) :
    (pyMain st choice t ["regen"]).outputs = [] := rfl


/-! ## Token-level and guard lemmas for the dispatcher -/


/-! Character-level helpers -/

theorem toLower_of_digit {c : Char} (h : c.isDigit = true) : c.toLower = c := by
  rw [Char.isDigit] at h
  simp only [Bool.and_eq_true, decide_eq_true_eq] at h
  rw [Char.toLower]
  have h2 : c.toNat ≤ 57 := UInt32.toNat_le_of_le (by norm_num) h.2
  rw [if_neg (by omega)]

/-- Python `lower()` fixes purely numeric strings. -/
theorem pyLower_of_isdigit {s : String} (h : pyIsdigit s = true) : pyLower s = s := by
  unfold pyIsdigit at h
  simp only [Bool.and_eq_true, List.all_eq_true] at h
  unfold pyLower
  have h2 : s.data.map Char.toLower = s.data := by
    rw [List.map_congr_left (fun c hc => toLower_of_digit (h.2 c hc))]
    exact List.map_id _
  rw [h2]

theorem singleton_infix_of_mem {c : Char} {l : List Char} (h : c ∈ l) : [c] <:+: l := by
  obtain ⟨s, t, rfl⟩ := List.mem_iff_append.mp h
  exact ⟨s, t, by simp⟩

/-- If a one-character marker occurs among the characters of `q`, then
`containsAnyMarker` would have seen it. -/
theorem strIn_of_mem_data {m q : String} {c : Char} (hm : m.data = [c]) (h : c ∈ q.data) :
    strIn m q = true := by
  unfold strIn
  rw [hm]
  exact decide_eq_true (singleton_infix_of_mem h)

theorem not_mem_data_of_marker_false (q m : String) (c : Char)
    (hmem : m ∈ allMarkers) (hm : m.data = [c])
    (hmark : containsAnyMarker q allMarkers = false) : ¬ c ∈ q.data := by
  intro hc
  have h1 : allMarkers.any (fun m => strIn m q) = true :=
    List.any_eq_true.mpr ⟨m, hmem, strIn_of_mem_data hm hc⟩
  rw [containsAnyMarker] at hmark
  rw [hmark] at h1
  exact Bool.false_ne_true h1

/-! Token-level helpers -/

theorem tokens_data_ne_nil {q : String} {ts : List String} (h : pyTokens q = ts)
    (hne : ts ≠ []) : q.data ≠ [] := by
  intro hd
  have h1 := words_data_of_pyTokens h
  rw [hd] at h1
  rw [words] at h1
  exact hne (by cases ts with | nil => rfl | cons a l => simp at h1)

theorem query_beq_empty_false {q : String} {ts : List String} (h : pyTokens q = ts)
    (hne : ts ≠ []) : (q == "") = false := by
  refine beq_eq_false_iff_ne.mpr (fun he => ?_)
  exact tokens_data_ne_nil h hne (by rw [he])

theorem pyIsspace_false_of_tokens {q : String} {ts : List String} (h : pyTokens q = ts)
    (hne : ts ≠ []) : pyIsspace q = false := by
  cases hb : pyIsspace q with
  | false => rfl
  | true =>
    unfold pyIsspace at hb
    simp only [Bool.and_eq_true, List.all_eq_true] at hb
    have h1 := words_data_of_pyTokens h
    rw [words_eq_nil_of_ws hb.2] at h1
    exact absurd (by cases ts with | nil => rfl | cons a l => simp at h1) hne

theorem token_length_pos {q : String} {ts : List String} (h : pyTokens q = ts) :
    ∀ s ∈ ts, 1 ≤ s.length := by
  intro s hs
  have h1 := words_data_of_pyTokens h
  have h2 : s.data ∈ words q.data := by
    rw [h1]
    exact List.mem_map_of_mem String.data hs
  have h3 := words_ne_nil h2
  show 1 ≤ s.data.length
  cases hd : s.data with
  | nil => exact absurd hd h3
  | cons a l => simp

theorem tokens_length_sum_le {q : String} {ts : List String} (h : pyTokens q = ts) :
    (ts.map String.length).sum ≤ q.length := by
  have h1 := words_length_sum_le q.data
  rw [words_data_of_pyTokens h, List.map_map] at h1
  exact h1

theorem two_le_query_length {q : String} {a b : String} {rest : List String}
    (h : pyTokens q = a :: b :: rest) : 2 ≤ q.length := by
  have h1 := tokens_length_sum_le h
  have ha := token_length_pos h a (by simp)
  have hb := token_length_pos h b (by simp)
  simp only [List.map_cons, List.sum_cons] at h1
  omega

theorem single_token_query_length {q : String} {a : String}
    (h : pyTokens q = [a]) : a.length ≤ q.length := by
  have h1 := tokens_length_sum_le h
  simpa using h1

/-- A purely numeric string is its own single token. -/
theorem pyTokens_of_isdigit {q : String} (h : pyIsdigit q = true) : pyTokens q = [q] := by
  unfold pyIsdigit at h
  simp only [Bool.and_eq_true, List.all_eq_true] at h
  have hnw : ∀ c ∈ q.data, c.isWhitespace = false := by
    intro c hc
    have hd := h.2 c hc
    rw [Char.isDigit] at hd
    simp only [Bool.and_eq_true, decide_eq_true_eq] at hd
    have h2 : 48 ≤ c.toNat := UInt32.le_toNat_of_le (by norm_num) hd.1
    cases hw : c.isWhitespace with
    | false => rfl
    | true =>
      rw [Char.isWhitespace] at hw
      simp only [Bool.or_eq_true, decide_eq_true_eq] at hw
      rcases hw with ((rfl | rfl) | rfl) | rfl <;> exact absurd h2 (by decide)
  have hne : q.data ≠ [] := by
    intro hd
    rw [hd] at h
    simp at h
  unfold pyTokens
  rw [words_eq_self_of_not_ws hne hnw]
  simp only [List.map_cons, List.map_nil]


/-! System-message guard exclusions -/

theorem stripData_of_pyStrip_eq {q m : String} (hm : pyStrip q = m) :
    stripList q.data = m.data := by
  have h2 := congrArg String.data hm
  simpa [pyStrip] using h2

/-- The head of `lower(a)` is the lowered head of `a`. -/
theorem pyLower_head {a f : String} {c : Char} {l : List Char}
    (hf : pyLower a = f) (ha : a.data = c :: l) : f.data.head? = some c.toLower := by
  have hld : f.data = a.data.map Char.toLower := by
    rw [← hf]; rfl
  rw [ha, List.map_cons] at hld
  rw [hld]
  rfl

/-- A query with two or more tokens and no marker characters is not an echoed
system message. -/
theorem isSystemMessage_false_of_two_tokens {q : String} {a b : String} {rest : List String}
    (h : pyTokens q = a :: b :: rest)
    (hmark : containsAnyMarker q allMarkers = false) :
    isSystemMessage q = false := by
  cases hb : isSystemMessage q with
  | false => rfl
  | true =>
    exfalso
    unfold isSystemMessage at hb
    simp only [Bool.or_eq_true] at hb
    have hwq := words_data_of_pyTokens h
    have hone : ∀ m : String, pyStrip q = m → words m.data = [m.data] → False := by
      intro m hm hw
      have h2 : words q.data = [m.data] := by
        rw [← words_stripList q.data, stripData_of_pyStrip_eq hm, hw]
      rw [hwq] at h2
      simp at h2
    rcases hb with (hmsg | hpre) | hpre
    · have hmem : pyStrip q ∈ system_messages := by simpa using hmsg
      simp only [system_messages, List.mem_cons, List.not_mem_nil, or_false] at hmem
      rcases hmem with hm | hm | hm | hm | hm | hm
      · exact not_mem_data_of_marker_false q "✅" '✅' (by decide) (by decide) hmark
          (mem_of_mem_stripList (by rw [stripData_of_pyStrip_eq hm]; decide))
      · exact hone _ hm (by decide)
      · exact hone _ hm (by decide)
      · exact not_mem_data_of_marker_false q "✅" '✅' (by decide) (by decide) hmark
          (mem_of_mem_stripList (by rw [stripData_of_pyStrip_eq hm]; decide))
      · exact hone _ hm (by decide)
      · exact hone _ hm (by decide)
    · unfold strStartsWith at hpre
      rw [ List.isPrefixOf_iff_prefix] at hpre
      obtain ⟨tl, htl⟩ := hpre
      refine not_mem_data_of_marker_false q "✅" '✅' (by decide) (by decide) hmark
        (mem_of_mem_stripList (show '✅' ∈ stripList q.data from ?_))
      show '✅' ∈ (pyStrip q).data
      rw [← htl]
      exact List.mem_append.mpr (Or.inl (by decide))
    · unfold strStartsWith at hpre
      rw [ List.isPrefixOf_iff_prefix] at hpre
      obtain ⟨tl, htl⟩ := hpre
      refine not_mem_data_of_marker_false q "❌" '❌' (by decide) (by decide) hmark
        (mem_of_mem_stripList (show '❌' ∈ stripList q.data from ?_))
      show '❌' ∈ (pyStrip q).data
      rw [← htl]
      exact List.mem_append.mpr (Or.inl (by decide))

/-- A multi-token query whose first token lowercases to a regen command form
is not an echoed system message. -/
theorem isSystemMessage_false_of_regen_head {q : String} {a : String} {rest : List String}
    (h : pyTokens q = a :: rest) (hrest : rest ≠ [])
    (hcmd : pyLower a = "regen" ∨ pyLower a = "reg" ∨ pyLower a = "rege") :
    isSystemMessage q = false := by
  cases hb : isSystemMessage q with
  | false => rfl
  | true =>
    exfalso
    unfold isSystemMessage at hb
    simp only [Bool.or_eq_true] at hb
    have hwq := words_data_of_pyTokens h
    have hone : ∀ m : String, pyStrip q = m → words m.data = [m.data] → False := by
      intro m hm hw
      have h2 : words q.data = [m.data] := by
        rw [← words_stripList q.data, stripData_of_pyStrip_eq hm, hw]
      rw [hwq] at h2
      simp only [List.map_cons] at h2
      have h3 := congrArg List.length h2
      simp only [List.length_cons, List.length_map, List.length_nil] at h3
      exact hrest (List.eq_nil_of_length_eq_zero (by omega))
    have hfirst : ∀ (c : Char) (l2 : List Char), a.data = c :: l2 → c.toLower ≠ 'r' → False := by
      intro c l2 ha hc
      rcases hcmd with hf | hf | hf <;>
        · have hh := pyLower_head hf ha
          rw [show (_ : String).data = _ from rfl] at hh
          simp only [List.head?_cons, Option.some.injEq] at hh
          exact hc hh.symm
    have hheadw : ∀ (c : Char) (tl : List Char), c.isWhitespace = false →
        stripList q.data = c :: tl → ∃ l2, a.data = c :: l2 := by
      intro c tl hcw hs
      have h2 : words q.data = (c :: tl.takeWhile (fun d => !d.isWhitespace))
          :: words (tl.dropWhile (fun d => !d.isWhitespace)) := by
        rw [← words_stripList q.data, hs, words_cons_not_ws tl hcw]
      rw [hwq] at h2
      simp only [List.map_cons, List.cons.injEq] at h2
      exact ⟨_, h2.1⟩
    rcases hb with (hmsg | hpre) | hpre
    · have hmem : pyStrip q ∈ system_messages := by simpa using hmsg
      simp only [system_messages, List.mem_cons, List.not_mem_nil, or_false] at hmem
      rcases hmem with hm | hm | hm | hm | hm | hm
      · have h2 : words q.data = ["✅".data, "删除成功".data] := by
          rw [← words_stripList q.data, stripData_of_pyStrip_eq hm]; decide
        rw [hwq] at h2
        simp only [List.map_cons, List.cons.injEq] at h2
        exact hfirst '✅' [] h2.1 (by decide)
      · exact hone _ hm (by decide)
      · exact hone _ hm (by decide)
      · have h2 : words q.data = ["✅".data, "清空完成".data] := by
          rw [← words_stripList q.data, stripData_of_pyStrip_eq hm]; decide
        rw [hwq] at h2
        simp only [List.map_cons, List.cons.injEq] at h2
        exact hfirst '✅' [] h2.1 (by decide)
      · exact hone _ hm (by decide)
      · exact hone _ hm (by decide)
    · unfold strStartsWith at hpre
      rw [ List.isPrefixOf_iff_prefix] at hpre
      obtain ⟨tl, htl⟩ := hpre
      obtain ⟨l2, hl2⟩ := hheadw '✅' tl (by decide) (by
        show stripList q.data = _
        have : (pyStrip q).data = stripList q.data := rfl
        rw [← this, ← htl]
        rfl)
      exact hfirst '✅' l2 hl2 (by decide)
    · unfold strStartsWith at hpre
      rw [ List.isPrefixOf_iff_prefix] at hpre
      obtain ⟨tl, htl⟩ := hpre
      obtain ⟨l2, hl2⟩ := hheadw '❌' tl (by decide) (by
        show stripList q.data = _
        have : (pyStrip q).data = stripList q.data := rfl
        rw [← this, ← htl]
        rfl)
      exact hfirst '❌' l2 hl2 (by decide)


/-! ## Dispatcher routing and the dispatch claims (C4, C5, C6, C8, C9) -/


/-- C6: the save action: with two or more tokens, a non-numeric non-command
first token, no `clear` token and no reserved marker, the first token becomes
the label, the remaining tokens joined by single spaces become the stored
secret, and the emitted item carries that secret as its payload. -/
theorem save_action_spec (st : Store) (choice : Nat → Fin chars.length) (t : Nat)
    (q n p : String) (rest : List String)
    (h : pyTokens q = n :: p :: rest)
    (hnum : pyIsdigit n = false)
    (hcmd : ¬ pyLower n ∈ (["list", "li", "lis", "del", "regen", "reg", "rege"] : List String))
    (hclear : ¬ "clear" ∈ (n :: p :: rest).map pyLower)
    (hmark : containsAnyMarker q allMarkers = false) :
    runQuery st choice t q =
      ⟨[[⟨n, "已保存，点击复制: " ++ " ".intercalate (p :: rest),
          " ".intercalate (p :: rest), n, true⟩]],
        save_password st n (" ".intercalate (p :: rest)) t⟩ ∧
    get_password (runQuery st choice t q).store n = some (" ".intercalate (p :: rest)) := by
  have hmain : runQuery st choice t q =
      ⟨[[⟨n, "已保存，点击复制: " ++ " ".intercalate (p :: rest),
          " ".intercalate (p :: rest), n, true⟩]],
        save_password st n (" ".intercalate (p :: rest)) t⟩ := by
    have hne : (n :: p :: rest) ≠ ([] : List String) := by simp
    have hq1 : (q == "") = false := query_beq_empty_false h hne
    have hq2 : pyIsspace q = false := pyIsspace_false_of_tokens h hne
    have hsys : isSystemMessage q = false := isSystemMessage_false_of_two_tokens h hmark
    have hlen : ¬ (q.length < 2) := by
      have := two_le_query_length h
      omega
    have hb1 : (pyLower n == "list") = false :=
      beq_eq_false_iff_ne.mpr (fun he => hcmd (by rw [he]; simp))
    have hb2 : (pyLower n == "li") = false :=
      beq_eq_false_iff_ne.mpr (fun he => hcmd (by rw [he]; simp))
    have hb3 : (pyLower n == "lis") = false :=
      beq_eq_false_iff_ne.mpr (fun he => hcmd (by rw [he]; simp))
    have hb4 : (pyLower n == "del") = false :=
      beq_eq_false_iff_ne.mpr (fun he => hcmd (by rw [he]; simp))
    have hb5 : (pyLower n == "regen") = false :=
      beq_eq_false_iff_ne.mpr (fun he => hcmd (by rw [he]; simp))
    have hb6 : (pyLower n == "reg") = false :=
      beq_eq_false_iff_ne.mpr (fun he => hcmd (by rw [he]; simp))
    have hb7 : (pyLower n == "rege") = false :=
      beq_eq_false_iff_ne.mpr (fun he => hcmd (by rw [he]; simp))
    have hcl : (pyLower n :: pyLower p :: List.map pyLower rest).contains "clear" = false := by
      simpa using hclear
    have hg4 : ((n :: p :: rest).length == 1) = false :=
      beq_eq_false_iff_ne.mpr (by simp)
    have hge : decide ((n :: p :: rest).length ≥ 2) = true :=
      decide_eq_true (by simp)
    unfold runQuery
    rw [h]
    simp only [hq1, hq2, hsys, hlen, hb1, hb2, hb3, hb4, hb5, hb6, hb7, hcl, hg4, hge, hnum, hmark,
      List.headD_cons, List.isEmpty_cons, Bool.not_false, Bool.false_or, Bool.or_false,
      Bool.false_and, Bool.and_false, Bool.true_and, Bool.and_true, Bool.or_self,
      Bool.false_eq_true, if_false, if_true, Bool.and_self,
      handle_save_password, alfred_output, alfredItem, List.map_cons, List.map_nil,
      List.drop_succ_cons, List.drop_zero, Option.getD_some, Option.getD_none]

  exact ⟨hmain, by rw [hmain]; exact get_save st n (" ".intercalate (p :: rest)) t⟩
/-- Routing: a multi-token query whose first token is a regen form reaches
`handle_regen_command`. -/
theorem runQuery_regen_route (st : Store) (choice : Nat → Fin chars.length) (t : Nat)
    (q c0 p : String) (rest : List String)
    (h : pyTokens q = c0 :: p :: rest)
    (hcmd : pyLower c0 = "regen" ∨ pyLower c0 = "reg" ∨ pyLower c0 = "rege") :
    runQuery st choice t q =
      ⟨(handle_regen_command st choice t (c0 :: p :: rest)).1,
       (handle_regen_command st choice t (c0 :: p :: rest)).2⟩ := by
  have hne : (c0 :: p :: rest) ≠ ([] : List String) := by simp
  have hq1 : (q == "") = false := query_beq_empty_false h hne
  have hq2 : pyIsspace q = false := pyIsspace_false_of_tokens h hne
  have hsys : isSystemMessage q = false :=
    isSystemMessage_false_of_regen_head h (by simp) hcmd
  have hlen : ¬ (q.length < 2) := by
    have := two_le_query_length h
    omega
  have hnum : pyIsdigit c0 = false := by
    cases hd : pyIsdigit c0 with
    | false => rfl
    | true =>
      have h2 := pyLower_of_isdigit hd
      rcases hcmd with hc | hc | hc <;>
        · rw [h2] at hc
          subst hc
          exact absurd hd (by decide)
  have hb1 : (pyLower c0 == "list") = false := by
    rcases hcmd with hc | hc | hc <;> rw [hc] <;> decide
  have hb2 : (pyLower c0 == "li") = false := by
    rcases hcmd with hc | hc | hc <;> rw [hc] <;> decide
  have hb3 : (pyLower c0 == "lis") = false := by
    rcases hcmd with hc | hc | hc <;> rw [hc] <;> decide
  have hb4 : (pyLower c0 == "del") = false := by
    rcases hcmd with hc | hc | hc <;> rw [hc] <;> decide
  have hbreg : (pyLower c0 == "regen"
      || (decide ((pyLower c0).length ≥ 3) && (pyLower c0 == "reg" || pyLower c0 == "rege")))
      = true := by
    rcases hcmd with hc | hc | hc <;> rw [hc] <;> decide
  have hg4 : ((c0 :: p :: rest).length == 1) = false :=
    beq_eq_false_iff_ne.mpr (by simp)
  unfold runQuery
  rw [h]
  simp only [hq1, hq2, hsys, hlen, hnum, hb1, hb2, hb3, hb4, hbreg, hg4,
    List.headD_cons, List.isEmpty_cons, Bool.not_false, Bool.false_or, Bool.or_false,
    Bool.false_and, Bool.and_false, Bool.true_and, Bool.and_true, Bool.or_self,
    Bool.false_eq_true, if_false, if_true]

/-- Length of a generated password: exactly `length.toNat`. -/
theorem generate_password_length (choice : Nat → Fin chars.length) (n : Int) :
    (generate_password choice n).length = n.toNat := by
  unfold generate_password
  show ((List.range n.toNat).map _).length = n.toNat
  rw [List.length_map, List.length_range]

/-- C9 (amended): the regenerate command.  With three or more tokens and a
purely numeric trailing token, that token is the length and the middle tokens
form the label; otherwise (including the two-token numeric case) the length
defaults to 16 and all tokens after the command form the label.  In either
case the entry is overwritten with a fresh password of the chosen length. -/
theorem regen_command_spec (st : Store) (choice : Nat → Fin chars.length) (t : Nat)
    (q c0 p : String) (rest : List String)
    (h : pyTokens q = c0 :: p :: rest)
    (hcmd : pyLower c0 = "regen" ∨ pyLower c0 = "reg" ∨ pyLower c0 = "rege") :
    ((rest ≠ [] ∧ pyIsdigit (rest.getLastD p) = true) →
      (runQuery st choice t q =
        ⟨[[⟨" ".intercalate ((p :: rest).dropLast),
            "已重新生成，点击复制: " ++ generate_password choice ((pyInt (rest.getLastD p) : Int)),
            generate_password choice ((pyInt (rest.getLastD p) : Int)),
            " ".intercalate ((p :: rest).dropLast), true⟩]],
          save_password st (" ".intercalate ((p :: rest).dropLast))
            (generate_password choice ((pyInt (rest.getLastD p) : Int))) t⟩ ∧
        get_password (runQuery st choice t q).store (" ".intercalate ((p :: rest).dropLast))
          = some (generate_password choice ((pyInt (rest.getLastD p) : Int))) ∧
        (generate_password choice ((pyInt (rest.getLastD p) : Int))).length
          = pyInt (rest.getLastD p))) ∧
    ((rest = [] ∨ pyIsdigit (rest.getLastD p) = false) →
      (runQuery st choice t q =
        ⟨[[⟨" ".intercalate (p :: rest),
            "已重新生成，点击复制: " ++ generate_password choice 16,
            generate_password choice 16,
            " ".intercalate (p :: rest), true⟩]],
          save_password st (" ".intercalate (p :: rest)) (generate_password choice 16) t⟩ ∧
        get_password (runQuery st choice t q).store (" ".intercalate (p :: rest))
          = some (generate_password choice 16) ∧
        (generate_password choice 16).length = 16)) := by
  have hroute := runQuery_regen_route st choice t q c0 p rest h hcmd
  have hlast : (c0 :: p :: rest).getLastD "" = rest.getLastD p := by
    rw [List.getLastD_cons, List.getLastD_cons]
  have hlen2 : (c0 :: p :: rest).length ≥ 2 := by simp
  constructor
  · rintro ⟨hr, hd⟩
    have hlen3 : decide ((c0 :: p :: rest).length ≥ 3) = true := by
      apply decide_eq_true
      cases rest with
      | nil => exact absurd rfl hr
      | cons x xs => simp
    have hout : runQuery st choice t q =
        ⟨[[⟨" ".intercalate ((p :: rest).dropLast),
            "已重新生成，点击复制: " ++ generate_password choice ((pyInt (rest.getLastD p) : Int)),
            generate_password choice ((pyInt (rest.getLastD p) : Int)),
            " ".intercalate ((p :: rest).dropLast), true⟩]],
          save_password st (" ".intercalate ((p :: rest).dropLast))
            (generate_password choice ((pyInt (rest.getLastD p) : Int))) t⟩ := by
      rw [hroute]
      unfold handle_regen_command
      rw [if_pos hlen2, hlast]
      simp only [hd, hlen3, Bool.and_self, if_true,
        List.drop_succ_cons, List.drop_zero,
        alfred_output, alfredItem, List.map_cons, List.map_nil,
        Option.getD_some, Option.getD_none]
    refine ⟨hout, ?_, ?_⟩
    · rw [hout]
      exact get_save st _ _ t
    · rw [generate_password_length]
      rfl
  · intro hcase
    have hcond : (decide ((c0 :: p :: rest).length ≥ 3)
        && pyIsdigit ((c0 :: p :: rest).getLastD "")) = false := by
      rcases hcase with hr | hd
      · subst hr
        simp
      · rw [hlast, hd, Bool.and_false]
    have hout : runQuery st choice t q =
        ⟨[[⟨" ".intercalate (p :: rest),
            "已重新生成，点击复制: " ++ generate_password choice 16,
            generate_password choice 16,
            " ".intercalate (p :: rest), true⟩]],
          save_password st (" ".intercalate (p :: rest)) (generate_password choice 16) t⟩ := by
      rw [hroute]
      unfold handle_regen_command
      rw [if_pos hlen2]
      simp only [hcond, Bool.false_eq_true, if_false,
        List.drop_succ_cons, List.drop_zero,
        alfred_output, alfredItem, List.map_cons, List.map_nil,
        Option.getD_some, Option.getD_none]
    refine ⟨hout, ?_, ?_⟩
    · rw [hout]
      exact get_save st _ _ t
    · rw [generate_password_length]
      rfl

theorem pyLower_length (s : String) : (pyLower s).length = s.length := by
  show (s.data.map Char.toLower).length = s.data.length
  exact List.length_map _ _

/-- A token lowering to `clear` is not purely numeric. -/
theorem isdigit_false_of_lower_clear {s : String} (hls : pyLower s = "clear") :
    pyIsdigit s = false := by
  cases hd : pyIsdigit s with
  | false => rfl
  | true =>
    rw [pyLower_of_isdigit hd] at hls
    subst hls
    exact absurd hd (by decide)

/-- Routing: a query whose tokens include `clear` (case-insensitively), with
a non-command first token and no system-message echo, reaches
`handle_clear_command`. -/
theorem runQuery_clear_route (st : Store) (choice : Nat → Fin chars.length) (t : Nat)
    (q : String) (ts : List String)
    (h : pyTokens q = ts)
    (hclear : "clear" ∈ ts.map pyLower)
    (hcmd : ¬ pyLower (ts.headD "") ∈
      (["list", "li", "lis", "del", "regen", "reg", "rege"] : List String))
    (hsys : isSystemMessage q = false) :
    runQuery st choice t q =
      ⟨[(handle_clear_command st q).1], (handle_clear_command st q).2⟩ := by
  have htne : ts ≠ [] := by rintro rfl; simp at hclear
  have hie : ts.isEmpty = false := by
    cases ts with
    | nil => exact absurd rfl htne
    | cons a l => rfl
  have hq1 : (q == "") = false := query_beq_empty_false h htne
  have hq2 : pyIsspace q = false := pyIsspace_false_of_tokens h htne
  have hlen : ¬ (q.length < 2) := by
    obtain ⟨s, hs, hsl⟩ := List.mem_map.mp hclear
    have h5 : s.length = 5 := by
      have h6 := congrArg String.length hsl
      rw [pyLower_length] at h6
      simpa using h6
    have hsum := tokens_length_sum_le h
    have hle : s.length ≤ (ts.map String.length).sum :=
      List.single_le_sum (fun x _ => Nat.zero_le x) _ (List.mem_map_of_mem String.length hs)
    omega
  have hg4 : (ts.length == 1 && pyIsdigit (ts.headD "")) = false := by
    cases ts with
    | nil => exact absurd rfl htne
    | cons a l =>
      cases l with
      | cons b l2 =>
        have h12 : (l2.length + 1 + 1 == 1) = false := beq_eq_false_iff_ne.mpr (by omega)
        simp only [List.length_cons, h12, Bool.false_and]
      | nil =>
        have ha : pyLower a = "clear" := by
          have h11 := hclear
          simp only [List.map_cons, List.map_nil, List.mem_cons, List.not_mem_nil,
            or_false] at h11
          exact h11.symm
        simp only [List.headD_cons, isdigit_false_of_lower_clear ha, Bool.and_false]
  have hg5 : (ts.length == 2 && pyIsdigit (ts.headD "")
      && decide ((ts.getD 1 "").length ≤ 2)) = false := by
    cases ts with
    | nil => exact absurd rfl htne
    | cons a l =>
      cases l with
      | nil =>
        have : ([a].length == 2) = false := beq_eq_false_iff_ne.mpr (by simp)
        simp only [this, Bool.false_and]
      | cons b l2 =>
        cases l2 with
        | cons c l3 =>
          have : ((a :: b :: c :: l3).length == 2) = false :=
            beq_eq_false_iff_ne.mpr (by simp)
          simp only [this, Bool.false_and]
        | nil =>
          cases hd : pyIsdigit a with
          | false => simp only [List.headD_cons, hd, Bool.and_false, Bool.false_and]
          | true =>
            have hla : pyLower a = a := pyLower_of_isdigit hd
            have hb : pyLower b = "clear" := by
              have h11 := hclear
              simp only [List.map_cons, List.map_nil, List.mem_cons,
                List.not_mem_nil, or_false] at h11
              rcases h11 with hx | hx
              · exfalso
                rw [hla] at hx
                have hx2 := hx.symm
                subst hx2
                exact absurd hd (by decide)
              · exact hx.symm
            have hbl : b.length = 5 := by
              have h6 := congrArg String.length hb
              rw [pyLower_length] at h6
              simpa using h6
            have : decide (((a :: b :: ([] : List String)).getD 1 "").length ≤ 2) = false := by
              simp only [List.getD, List.get?, Option.getD_some]
              refine decide_eq_false ?_
              simp [hbl]
            rw [this, Bool.and_false]
  have hg6 : (ts.length == 2 && pyIsdigit (ts.headD "")
      && (pyLower (ts.getD 1 "") == "gi" || pyLower (ts.getD 1 "") == "g")) = false := by
    cases ts with
    | nil => exact absurd rfl htne
    | cons a l =>
      cases l with
      | nil =>
        have : ([a].length == 2) = false := beq_eq_false_iff_ne.mpr (by simp)
        simp only [this, Bool.false_and]
      | cons b l2 =>
        cases l2 with
        | cons c l3 =>
          have : ((a :: b :: c :: l3).length == 2) = false :=
            beq_eq_false_iff_ne.mpr (by simp)
          simp only [this, Bool.false_and]
        | nil =>
          cases hd : pyIsdigit a with
          | false => simp only [List.headD_cons, hd, Bool.and_false, Bool.false_and]
          | true =>
            have hla : pyLower a = a := pyLower_of_isdigit hd
            have hb : pyLower b = "clear" := by
              have h11 := hclear
              simp only [List.map_cons, List.map_nil, List.mem_cons,
                List.not_mem_nil, or_false] at h11
              rcases h11 with hx | hx
              · exfalso
                rw [hla] at hx
                have hx2 := hx.symm
                subst hx2
                exact absurd hd (by decide)
              · exact hx.symm
            have hgi : (pyLower ((a :: b :: ([] : List String)).getD 1 "") == "gi"
                || pyLower ((a :: b :: ([] : List String)).getD 1 "") == "g") = false := by
              have hgd : (a :: b :: ([] : List String)).getD 1 "" = b := rfl
              rw [hgd, hb]
              decide
            rw [hgi, Bool.and_false]
  have hb1 : (pyLower (ts.headD "") == "list") = false :=
    beq_eq_false_iff_ne.mpr (fun he => hcmd (by rw [he]; simp))
  have hb2 : (pyLower (ts.headD "") == "li") = false :=
    beq_eq_false_iff_ne.mpr (fun he => hcmd (by rw [he]; simp))
  have hb3 : (pyLower (ts.headD "") == "lis") = false :=
    beq_eq_false_iff_ne.mpr (fun he => hcmd (by rw [he]; simp))
  have hb4 : (pyLower (ts.headD "") == "del") = false :=
    beq_eq_false_iff_ne.mpr (fun he => hcmd (by rw [he]; simp))
  have hb5 : (pyLower (ts.headD "") == "regen") = false :=
    beq_eq_false_iff_ne.mpr (fun he => hcmd (by rw [he]; simp))
  have hb6 : (pyLower (ts.headD "") == "reg") = false :=
    beq_eq_false_iff_ne.mpr (fun he => hcmd (by rw [he]; simp))
  have hb7 : (pyLower (ts.headD "") == "rege") = false :=
    beq_eq_false_iff_ne.mpr (fun he => hcmd (by rw [he]; simp))
  have hcont : (ts.map pyLower).contains "clear" = true := by
    simpa using hclear
  unfold runQuery
  rw [h]
  simp only [hq1, hq2, hsys, hlen, hg4, hg5, hg6, hb1, hb2, hb3, hb4, hb5, hb6, hb7,
    hcont, hie, Bool.not_false, Bool.false_or, Bool.or_false,
    Bool.false_and, Bool.and_false, Bool.true_and, Bool.and_true, Bool.or_self,
    Bool.false_eq_true, if_false, if_true]

/-- C4 (amended): the clear-confirmation flow.  The store is emptied exactly
when the trimmed, lowercased query is `clear confirm`; every other query in
the clear flow emits the count-aware confirmation prompt and leaves the
store unchanged; a confirmed clear of `k > 0` entries reports `k` and leaves
the store empty. -/
theorem clear_flow_spec (st : Store) (choice : Nat → Fin chars.length) (t : Nat)
    (q : String) (ts : List String)
    (h : pyTokens q = ts)
    (hclear : "clear" ∈ ts.map pyLower)
    (hcmd : ¬ pyLower (ts.headD "") ∈
      (["list", "li", "lis", "del", "regen", "reg", "rege"] : List String))
    (hsys : isSystemMessage q = false) :
    (pyLower (pyStrip q) ≠ "clear confirm" →
      (runQuery st choice t q).store = st ∧
      (runQuery st choice t q).outputs = [clearPrompt st] ∧
      (0 < st.length →
        clearPrompt st = [⟨"⚠️ 确认清空",
          "输入 \x27clear confirm\x27 来确认清空所有密码（当前有 "
            ++ toString st.length ++ " 个密码）",
          "⚠️ 确认清空", "⚠️ 确认清空", true⟩])) ∧
    (pyLower (pyStrip q) = "clear confirm" → 0 < st.length →
      runQuery st choice t q =
        ⟨[[⟨"✅ 清空完成", "已成功删除 " ++ toString st.length ++ " 个密码记录",
            "✅ 清空完成", "✅ 清空完成", true⟩]], []⟩) := by
  have hroute := runQuery_clear_route st choice t q ts h hclear hcmd hsys
  have hprompt : 0 < st.length →
      clearPrompt st = [⟨"⚠️ 确认清空",
        "输入 \x27clear confirm\x27 来确认清空所有密码（当前有 "
          ++ toString st.length ++ " 个密码）",
        "⚠️ 确认清空", "⚠️ 确认清空", true⟩] := by
    intro hpos
    unfold clearPrompt
    rw [length_list_passwords]
    rw [if_pos hpos]
    rfl
  constructor
  · intro hnc
    have hclr : handle_clear_command st q = (clearPrompt st, st) := by
      unfold handle_clear_command
      by_cases hq : pyLower (pyStrip q) = "clear"
      · rw [if_pos (by simpa using hq)]
      · rw [if_neg (by simpa using hq), if_neg (by simpa using hnc)]
    rw [hroute, hclr]
    exact ⟨rfl, rfl, hprompt⟩
  · intro hc hpos
    have hne : (pyLower (pyStrip q) == "clear") = false := by
      rw [hc]; decide
    have hclr : handle_clear_command st q =
        ([⟨"✅ 清空完成", "已成功删除 " ++ toString st.length ++ " 个密码记录",
            "✅ 清空完成", "✅ 清空完成", true⟩], ([] : Store)) := by
      unfold handle_clear_command
      rw [hne]
      simp only [Bool.false_eq_true, if_false]
      rw [if_pos (by simpa using hc)]
      unfold clear_all_passwords
      simp only
      rw [if_pos hpos]
      have hrem : (list_passwords ([] : Store)).length = 0 := rfl
      rw [hrem]
      rfl
    rw [hroute, hclr]

/-- Routing: a single-token, non-numeric, non-command, marker-free query that
is no system echo reaches `handle_smart_search`. -/
theorem runQuery_smart_route (st : Store) (choice : Nat → Fin chars.length) (t : Nat)
    (q : String)
    (h : pyTokens q = [q])
    (hlen : 2 ≤ q.length)
    (hnum : pyIsdigit q = false)
    (hcmd : ¬ pyLower q ∈
      (["list", "li", "lis", "del", "regen", "reg", "rege", "clear"] : List String))
    (hsys : isSystemMessage q = false)
    (hmark : containsAnyMarker q helpMarkers = false) :
    runQuery st choice t q = ⟨[handle_smart_search st q], st⟩ := by
  have htne : ([q] : List String) ≠ [] := by simp
  have hq1 : (q == "") = false := query_beq_empty_false h htne
  have hq2 : pyIsspace q = false := pyIsspace_false_of_tokens h htne
  have hlt : ¬ (q.length < 2) := by omega
  have hb1 : (pyLower q == "list") = false :=
    beq_eq_false_iff_ne.mpr (fun he => hcmd (by rw [he]; simp))
  have hb2 : (pyLower q == "li") = false :=
    beq_eq_false_iff_ne.mpr (fun he => hcmd (by rw [he]; simp))
  have hb3 : (pyLower q == "lis") = false :=
    beq_eq_false_iff_ne.mpr (fun he => hcmd (by rw [he]; simp))
  have hb4 : (pyLower q == "del") = false :=
    beq_eq_false_iff_ne.mpr (fun he => hcmd (by rw [he]; simp))
  have hb5 : (pyLower q == "regen") = false :=
    beq_eq_false_iff_ne.mpr (fun he => hcmd (by rw [he]; simp))
  have hb6 : (pyLower q == "reg") = false :=
    beq_eq_false_iff_ne.mpr (fun he => hcmd (by rw [he]; simp))
  have hb7 : (pyLower q == "rege") = false :=
    beq_eq_false_iff_ne.mpr (fun he => hcmd (by rw [he]; simp))
  have hs1 : ("list" == pyLower q) = false :=
    beq_eq_false_iff_ne.mpr (fun he => hcmd (by rw [← he]; simp))
  have hs2 : ("clear" == pyLower q) = false :=
    beq_eq_false_iff_ne.mpr (fun he => hcmd (by rw [← he]; simp))
  have hs3 : ("del" == pyLower q) = false :=
    beq_eq_false_iff_ne.mpr (fun he => hcmd (by rw [← he]; simp))
  have hs4 : ("regen" == pyLower q) = false :=
    beq_eq_false_iff_ne.mpr (fun he => hcmd (by rw [← he]; simp))
  have hsave : (decide ((0:Nat) + 1 ≥ 2)) = false := by decide
  have hone : (((0:Nat) + 1) == 1) = true := by decide
  unfold runQuery
  rw [h]
  simp only [hq1, hq2, hsys, hlt, hnum, hb1, hb2, hb3, hb4, hb5, hb6, hb7,
    hs1, hs2, hs3, hs4, hsave, hone, hmark,
    List.headD_cons, List.isEmpty_cons, List.map_cons, List.map_nil,
    List.contains_cons, List.contains_nil, List.any_cons, List.any_nil,
    List.length_cons, List.length_nil,
    Bool.not_false, Bool.false_or, Bool.or_false,
    Bool.false_and, Bool.and_false, Bool.true_and, Bool.and_true, Bool.or_self,
    Bool.false_eq_true, if_false, if_true, Bool.and_self, Bool.not_true]

theorem passwordRowItem_title (st : Store) (n : String) :
    (alfredItem (passwordRowItem st n)).title = n := by
  unfold passwordRowItem
  cases hp : ((get_password st n).getD "" != "") with
  | true => rw [if_pos hp]; rfl
  | false => rw [if_neg (by rw [hp]; exact Bool.false_ne_true)]; rfl

/-- C5 (amended): smart search.  An exact case-insensitive label match (with
non-empty secret) short-circuits to a direct query item; otherwise the result
items are exactly the stored labels containing the query case-insensitively;
with no such label a single not-found item is emitted.  The store is never
written. -/
theorem smart_search_spec (st : Store) (choice : Nat → Fin chars.length) (t : Nat)
    (q : String)
    (h : pyTokens q = [q])
    (hlen : 2 ≤ q.length)
    (hnum : pyIsdigit q = false)
    (hcmd : ¬ pyLower q ∈
      (["list", "li", "lis", "del", "regen", "reg", "rege", "clear"] : List String))
    (hsys : isSystemMessage q = false)
    (hmark : containsAnyMarker q helpMarkers = false) :
    (runQuery st choice t q).store = st ∧
    (∀ name : String,
      (list_passwords st).find? (fun n => pyLower n == pyLower q) = some name →
      (get_password st name).getD "" ≠ "" →
      (runQuery st choice t q).outputs =
        [[⟨name, "点击复制密码: " ++ (get_password st name).getD "",
           (get_password st name).getD "", name, true⟩]]) ∧
    ((list_passwords st).find? (fun n => pyLower n == pyLower q) = none →
      (((list_passwords st).filter (fun n => strIn (pyLower q) (pyLower n)) ≠ [] →
        (runQuery st choice t q).outputs.map (List.map AlfredItem.title) =
          [(list_passwords st).filter (fun n => strIn (pyLower q) (pyLower n))]) ∧
      ((list_passwords st).filter (fun n => strIn (pyLower q) (pyLower n)) = [] →
        (runQuery st choice t q).outputs =
          [[⟨"未找到密码",
             "可用 \x27标签 密码\x27 保存新密码或 \x27长度 标签\x27 生成密码",
             "未找到密码", "未找到密码", true⟩]]))) := by
  have hroute := runQuery_smart_route st choice t q h hlen hnum hcmd hsys hmark
  refine ⟨by rw [hroute], ?_, ?_⟩
  · intro name hfind hpwd
    have hpb : ((get_password st name).getD "" != "") = true := by simpa using hpwd
    rw [hroute]
    simp only [handle_smart_search, hfind, hpb, if_true,
      alfred_output, alfredItem, List.map_cons, List.map_nil, Option.getD_some,
      Option.getD_none]
  · intro hfind
    constructor
    · intro hne
      have hnb : (!((list_passwords st).filter
          (fun n => strIn (pyLower q) (pyLower n))).isEmpty) = true := by
        simpa [List.isEmpty_iff] using hne
      rw [hroute]
      simp only [handle_smart_search, hfind, hnb, if_true, alfred_output,
        List.map_cons, List.map_nil, List.map_map]
      have hmt : ((list_passwords st).filter
            (fun n => strIn (pyLower q) (pyLower n))).map
              (fun n => (alfredItem (passwordRowItem st n)).title)
          = (list_passwords st).filter (fun n => strIn (pyLower q) (pyLower n)) := by
        rw [List.map_congr_left (fun n hn => passwordRowItem_title st n)]
        exact List.map_id _
      simpa [Function.comp_def] using hmt
    · intro hnil
      rw [hroute]
      simp only [handle_smart_search, hfind, hnil, List.isEmpty_nil, Bool.not_true,
        Bool.false_eq_true, if_false, alfred_output, alfredItem,
        List.map_cons, List.map_nil, notFoundItem]

theorem string_data_ext {s t : String} (h : s.data = t.data) : s = t := by
  cases s
  cases t
  exact congrArg String.mk h

theorem pyTokens_eq_of_strip {q m : String} (hm : pyStrip q = m) :
    pyTokens q = pyTokens m := by
  unfold pyTokens
  rw [← words_stripList q.data, stripData_of_pyStrip_eq hm]

/-- The first token starts with the first character of the stripped query. -/
theorem first_token_head {q a : String} {rest : List String}
    (h : pyTokens q = a :: rest) (c : Char) (tl : List Char) (hcw : c.isWhitespace = false)
    (hs : stripList q.data = c :: tl) : ∃ l2, a.data = c :: l2 := by
  have hwq := words_data_of_pyTokens h
  have h2 : words q.data = (c :: tl.takeWhile (fun d => !d.isWhitespace))
      :: words (tl.dropWhile (fun d => !d.isWhitespace)) := by
    rw [← words_stripList q.data, hs, words_cons_not_ws tl hcw]
  rw [hwq] at h2
  simp only [List.map_cons, List.cons.injEq] at h2
  exact ⟨_, h2.1⟩

/-- The characters of a purely numeric string are not whitespace. -/
theorem isdigit_chars_not_ws {s : String} (h : pyIsdigit s = true) :
    ∀ c ∈ s.data, c.isWhitespace = false := by
  unfold pyIsdigit at h
  simp only [Bool.and_eq_true, List.all_eq_true] at h
  intro c hc
  have hd := h.2 c hc
  rw [Char.isDigit] at hd
  simp only [Bool.and_eq_true, decide_eq_true_eq] at hd
  have h2 : 48 ≤ c.toNat := UInt32.le_toNat_of_le (by norm_num) hd.1
  cases hw : c.isWhitespace with
  | false => rfl
  | true =>
    rw [Char.isWhitespace] at hw
    simp only [Bool.or_eq_true, decide_eq_true_eq] at hw
    rcases hw with ((rfl | rfl) | rfl) | rfl <;> exact absurd h2 (by decide)

/-- A query whose first token is purely numeric is not an echoed system
message. -/
theorem isSystemMessage_false_of_digit_head {q a : String} {rest : List String}
    (h : pyTokens q = a :: rest) (hd : pyIsdigit a = true) :
    isSystemMessage q = false := by
  cases hb : isSystemMessage q with
  | false => rfl
  | true =>
    exfalso
    unfold isSystemMessage at hb
    simp only [Bool.or_eq_true] at hb
    have hfirstc : ∀ (c : Char) (l2 : List Char), a.data = c :: l2 → c.isDigit = true := by
      intro c l2 ha
      have h2 : pyIsdigit a = true := hd
      unfold pyIsdigit at h2
      simp only [Bool.and_eq_true, List.all_eq_true] at h2
      exact h2.2 c (by rw [ha]; simp)
    rcases hb with (hmsg | hpre) | hpre
    · have hmem : pyStrip q ∈ system_messages := by simpa using hmsg
      simp only [system_messages, List.mem_cons, List.not_mem_nil, or_false] at hmem
      have htok : ∀ m : String, pyStrip q = m → (a :: rest : List String) = pyTokens m := by
        intro m hm
        rw [← h, pyTokens_eq_of_strip hm]
      rcases hmem with hm | hm | hm | hm | hm | hm
      · have h2 := htok _ hm
        have h3 : pyTokens "✅ 删除成功" = ["✅", "删除成功"] := by decide
        rw [h3] at h2
        injection h2 with ha _
        rw [ha] at hd
        exact absurd hd (by decide)
      · have h2 := htok _ hm
        have h3 : pyTokens "删除成功" = ["删除成功"] := by decide
        rw [h3] at h2
        injection h2 with ha _
        rw [ha] at hd
        exact absurd hd (by decide)
      · have h2 := htok _ hm
        have h3 : pyTokens "删除失败" = ["删除失败"] := by decide
        rw [h3] at h2
        injection h2 with ha _
        rw [ha] at hd
        exact absurd hd (by decide)
      · have h2 := htok _ hm
        have h3 : pyTokens "✅ 清空完成" = ["✅", "清空完成"] := by decide
        rw [h3] at h2
        injection h2 with ha _
        rw [ha] at hd
        exact absurd hd (by decide)
      · have h2 := htok _ hm
        have h3 : pyTokens "清空完成" = ["清空完成"] := by decide
        rw [h3] at h2
        injection h2 with ha _
        rw [ha] at hd
        exact absurd hd (by decide)
      · have h2 := htok _ hm
        have h3 : pyTokens "清空失败" = ["清空失败"] := by decide
        rw [h3] at h2
        injection h2 with ha _
        rw [ha] at hd
        exact absurd hd (by decide)
    · unfold strStartsWith at hpre
      rw [ List.isPrefixOf_iff_prefix] at hpre
      obtain ⟨tl, htl⟩ := hpre
      obtain ⟨l2, hl2⟩ := first_token_head h '✅' tl (by decide) (by
        show stripList q.data = _
        have h9 : (pyStrip q).data = stripList q.data := rfl
        rw [← h9, ← htl]
        rfl)
      exact absurd (hfirstc '✅' l2 hl2) (by decide)
    · unfold strStartsWith at hpre
      rw [ List.isPrefixOf_iff_prefix] at hpre
      obtain ⟨tl, htl⟩ := hpre
      obtain ⟨l2, hl2⟩ := first_token_head h '❌' tl (by decide) (by
        show stripList q.data = _
        have h9 : (pyStrip q).data = stripList q.data := rfl
        rw [← h9, ← htl]
        rfl)
      exact absurd (hfirstc '❌' l2 hl2) (by decide)

/-- A single-character non-whitespace query other than the checkmark and the
cross is not an echoed system message. -/
theorem isSystemMessage_false_of_single_char {q : String} {c : Char}
    (hd : q.data = [c]) (hws : c.isWhitespace = false)
    (h1 : q ≠ "✅") (h2 : q ≠ "❌") : isSystemMessage q = false := by
  cases hb : isSystemMessage q with
  | false => rfl
  | true =>
    exfalso
    unfold isSystemMessage at hb
    simp only [Bool.or_eq_true] at hb
    have hstrip : (pyStrip q).data = [c] := by
      show stripList q.data = [c]
      rw [hd]
      exact stripList_eq_self_of_not_ws (by
        intro x hx
        simp only [List.mem_singleton] at hx
        subst hx
        exact hws)
    rcases hb with (hmsg | hpre) | hpre
    · have hmem : pyStrip q ∈ system_messages := by simpa using hmsg
      have hlen4 : ∀ m ∈ system_messages, m.data.length ≠ 1 := by decide
      exact hlen4 _ hmem (by rw [hstrip]; rfl)
    · unfold strStartsWith at hpre
      rw [ List.isPrefixOf_iff_prefix] at hpre
      obtain ⟨tl, htl⟩ := hpre
      rw [hstrip] at htl
      have hc : c = '✅' := by
        have h9 := congrArg List.head? htl
        exact (by simpa using h9 : ('✅' : Char) = c).symm
      exact h1 (string_data_ext (by rw [hd, hc]))
    · unfold strStartsWith at hpre
      rw [ List.isPrefixOf_iff_prefix] at hpre
      obtain ⟨tl, htl⟩ := hpre
      rw [hstrip] at htl
      have hc : c = '❌' := by
        have h9 := congrArg List.head? htl
        exact (by simpa using h9 : ('❌' : Char) = c).symm
      exact h2 (string_data_ext (by rw [hd, hc]))

/-- C8 (amended): the still-typing placeholders.  (1) a single-character
query that is not whitespace and not the bare ✅ / ❌ marker; (2) a single
purely numeric token; (3) a numeric token followed by a second token of at
most two characters (the code exempts no "protected" short tokens).  Each
yields one non-actionable `输入中...` placeholder envelope and writes
nothing. -/
theorem still_typing_spec (st : Store) (choice : Nat → Fin chars.length) (t : Nat)
    (q : String) :
    ((q.length = 1 ∧ pyIsspace q = false ∧ q ≠ "✅" ∧ q ≠ "❌") →
      (runQuery st choice t q).store = st ∧
      (runQuery st choice t q).outputs.map (List.map (fun it => (it.title, it.valid)))
        = [[("输入中...", false)]]) ∧
    (pyIsdigit q = true →
      (runQuery st choice t q).store = st ∧
      (runQuery st choice t q).outputs.map (List.map (fun it => (it.title, it.valid)))
        = [[("输入中...", false)]]) ∧
    (∀ a b : String, pyTokens q = [a, b] → pyIsdigit a = true → b.length ≤ 2 →
      (runQuery st choice t q).store = st ∧
      (runQuery st choice t q).outputs.map (List.map (fun it => (it.title, it.valid)))
        = [[("输入中...", false)]]) := by
  refine ⟨?_, ?_, ?_⟩
  · rintro ⟨hl1, hsp, hne1, hne2⟩
    obtain ⟨c, hd⟩ := List.length_eq_one.mp (show q.data.length = 1 from hl1)
    have hws : c.isWhitespace = false := by
      unfold pyIsspace at hsp
      rw [hd] at hsp
      simpa using hsp
    have hq1 : (q == "") = false := beq_eq_false_iff_ne.mpr (fun he => by
      rw [he] at hd
      simp at hd)
    have hsys : isSystemMessage q = false := isSystemMessage_false_of_single_char hd hws hne1 hne2
    unfold runQuery
    simp only [hq1, hsp, hsys, Bool.or_self, Bool.false_eq_true, if_false]
    rw [if_pos (show q.length < 2 by omega)]
    exact ⟨rfl, rfl⟩
  · intro hdig
    have htok : pyTokens q = [q] := pyTokens_of_isdigit hdig
    have hq1 : (q == "") = false := query_beq_empty_false htok (by simp)
    have hsp : pyIsspace q = false := pyIsspace_false_of_tokens htok (by simp)
    have hsys : isSystemMessage q = false := isSystemMessage_false_of_digit_head htok hdig
    by_cases hlt : q.length < 2
    · unfold runQuery
      simp only [hq1, hsp, hsys, Bool.or_self, Bool.false_eq_true, if_false]
      rw [if_pos hlt]
      exact ⟨rfl, rfl⟩
    · have hone : ((0 : Nat) + 1 == 1) = true := by decide
      unfold runQuery
      rw [htok]
      simp only [hq1, hsp, hsys, hlt, hdig, hone,
        List.headD_cons, List.length_cons, List.length_nil,
        Bool.or_self, Bool.false_eq_true, if_false, Bool.and_self, Bool.and_true,
        Bool.true_and, if_true]
      exact ⟨trivial, rfl⟩
  · intro a b htok hdiga hble
    have hq1 : (q == "") = false := query_beq_empty_false htok (by simp)
    have hsp : pyIsspace q = false := pyIsspace_false_of_tokens htok (by simp)
    have hsys : isSystemMessage q = false := isSystemMessage_false_of_digit_head htok hdiga
    have hlt : ¬ (q.length < 2) := by
      have := two_le_query_length htok
      omega
    have hg4 : ((0 : Nat) + 1 + 1 == 1) = false := by decide
    have hg5 : ((0 : Nat) + 1 + 1 == 2) = true := by decide
    have hgd : (([a, b] : List String).getD 1 "") = b := rfl
    have hble2 : decide (b.length ≤ 2) = true := decide_eq_true hble
    unfold runQuery
    rw [htok]
    simp only [hq1, hsp, hsys, hlt, hdiga, hg4, hg5, hgd, hble2,
      List.headD_cons, List.length_cons, List.length_nil,
      Bool.or_self, Bool.false_eq_true, if_false, Bool.false_and, Bool.and_false,
      Bool.and_self, Bool.and_true, Bool.true_and, if_true]
    exact ⟨trivial, rfl⟩


/-! ## Counterexamples and witnesses on concrete inputs -/


/-- C4 counterexample: the uppercase query `CLEAR CONFIRM` also empties the
store, so the destructive action is not reserved for the literal phrase
`clear confirm`. -/
theorem clear_uppercase_confirm_cex :
    (runQuery [⟨"a", "p", 0⟩] constChoice 0 "CLEAR CONFIRM").store = [] ∧
    ("CLEAR CONFIRM" : String) ≠ "clear confirm" := by
  exact ⟨by decide, by decide⟩

/-- Witness for `clear_flow_spec`. -/
theorem clear_flow_spec_witness :
    runQuery sampleStore constChoice 0 "clear confirm" =
      ⟨[[⟨"✅ 清空完成", "已成功删除 2 个密码记录", "✅ 清空完成", "✅ 清空完成", true⟩]],
        []⟩ := by
  exact (clear_flow_spec sampleStore constChoice 0 "clear confirm" ["clear", "confirm"]
    (by decide) (by decide) (by decide) (by decide)).2 (by decide) (by decide)

/-- C5 counterexample: the single-token query `🔑ab` satisfies every smart
search precondition of the claim and is a substring of the stored label
`🔑abc`, yet the reserved-marker guard rewrites it to the help screen, which
contains no item for that label. -/
theorem smart_search_marker_cex :
    (runQuery [⟨"🔑abc", "p", 0⟩] constChoice 0 "🔑ab").outputs
      = [show_help [⟨"🔑abc", "p", 0⟩]] ∧
    ((show_help [⟨"🔑abc", "p", 0⟩]).map AlfredItem.title).contains "🔑abc" = false ∧
    pyTokens "🔑ab" = ["🔑ab"] ∧ pyIsdigit "🔑ab" = false ∧
    2 ≤ ("🔑ab" : String).length ∧
    strIn (pyLower "🔑ab") (pyLower "🔑abc") = true := by
  refine ⟨by decide, by decide, by decide, by decide, by decide, by decide⟩

/-- Witness for `smart_search_spec`. -/
theorem smart_search_spec_witness :
    (runQuery sampleStore constChoice 0 "gith").outputs.map (List.map AlfredItem.title)
      = [["github"]] := by
  exact ((smart_search_spec sampleStore constChoice 0 "gith"
    (by decide) (by decide) (by decide) (by decide) (by decide) (by decide)).2.2
    (by decide)).1 (by decide)

/-- Witness for `save_action_spec`. -/
theorem save_action_spec_witness :
    runQuery [] constChoice 3 "github mySecretPw" =
      ⟨[[⟨"github", "已保存，点击复制: mySecretPw", "mySecretPw", "github", true⟩]],
        [⟨"github", "mySecretPw", 3⟩]⟩ ∧
    get_password (runQuery [] constChoice 3 "github mySecretPw").store "github"
      = some "mySecretPw" := by
  exact (save_action_spec [] constChoice 3 "github mySecretPw" "github" "mySecretPw" []
    (by decide) (by decide) (by decide) (by decide) (by decide))

/-- C8 counterexample: the one-character query `✅` is routed to the help
screen by the echoed-system-message guard, not to the still-typing
placeholder. -/
theorem still_typing_checkmark_cex :
    ("✅" : String).length = 1 ∧
    (runQuery [] constChoice 0 "✅").outputs.map
      (List.map (fun it => (it.title, it.valid))) ≠ [[("输入中...", false)]] ∧
    (runQuery [] constChoice 0 "✅").outputs = [show_help []] := by
  refine ⟨by decide, by decide, by decide⟩

/-- Witness for `still_typing_spec`. -/
theorem still_typing_spec_witness :
    pyIsdigit "16" = true ∧
    ((runQuery [] constChoice 0 "16").store = [] ∧
     (runQuery [] constChoice 0 "16").outputs.map
       (List.map (fun it => (it.title, it.valid))) = [[("输入中...", false)]]) :=
  ⟨by decide, (still_typing_spec [] constChoice 0 "16").2.1 (by decide)⟩

/-- C9 counterexample: on `regen 20` the trailing numeric token becomes the
label and the password defaults to 16 characters; it is not parsed as the
requested length 20. -/
theorem regen_two_token_numeric_cex :
    (runQuery [] constChoice 7 "regen 20").store = [⟨"20", "aaaaaaaaaaaaaaaa", 7⟩] ∧
    ("aaaaaaaaaaaaaaaa" : String).length = 16 ∧
    pyIsdigit "20" = true := by
  refine ⟨by decide, by decide, by decide⟩

/-- Witness for `regen_command_spec`. -/
theorem regen_command_spec_witness :
    runQuery [] constChoice 4 "regen github 20" =
      ⟨[[⟨"github", "已重新生成，点击复制: aaaaaaaaaaaaaaaaaaaa",
          "aaaaaaaaaaaaaaaaaaaa", "github", true⟩]],
        [⟨"github", "aaaaaaaaaaaaaaaaaaaa", 4⟩]⟩ := by
  exact (((regen_command_spec [] constChoice 4 "regen github 20" "regen" "github" ["20"]
    (by decide) (Or.inl (by decide))).1 ⟨by decide, by decide⟩)).1


end PassPy
